import Mathlib

/-!
# port-exporter: probe loop, metric state and configuration loading

A shallow embedding of `port_exporter.go`.

* A Go `string` is an arbitrary byte sequence (`GoString`); it need not be
  valid UTF-8.  Text literals are turned into their UTF-8 bytes.
* The gauge vector `portStatus` is a finite map from the four label values
  `(host, port, label, describe)` to the gauge value.  It is modelled as a
  function into `Option`: `none` means that no child gauge exists for the key.
  The only values the program ever stores are the constants `0` and `1`,
  which are kept as integers.  `WithLabelValues` panics on a label value that
  is not valid UTF-8; a panic in a goroutine ends the process.
* Everything the program obtains from outside (what a TCP dial did, the
  file system, the glob expansion, the YAML decoder) is an explicit input.
* Effects that matter for the claims (dialling, logging, spawning, exiting,
  serving) are recorded in a trace.
-/

set_option linter.dupNamespace false

namespace PortExporter

/-! ## Go strings -/

/-- A Go `string`: a sequence of bytes. -/
abbrev GoString := List Nat

/-- The UTF-8 encoding of one Unicode scalar value. -/
def utf8EncodeChar (c : Char) : List Nat :=
  let v := c.toNat
  if v < 0x80 then [v]
  else if v < 0x800 then [0xC0 + v / 64, 0x80 + v % 64]
  else if v < 0x10000 then [0xE0 + v / 4096, 0x80 + v / 64 % 64, 0x80 + v % 64]
  else [0xF0 + v / 262144, 0x80 + v / 4096 % 64, 0x80 + v / 64 % 64, 0x80 + v % 64]

/-- The Go string holding a text: its UTF-8 bytes. -/
def GoString.ofString (s : String) : GoString := s.data.flatMap utf8EncodeChar

instance : Coe String GoString := ⟨GoString.ofString⟩

/-- The scanner behind `utf8.ValidString`.  The state is `none` at a character
boundary and `some (lo, hi, more)` inside a multi-byte character, when the next
byte must lie in `lo..hi` and `more` continuation bytes follow it. -/
def validFrom : Option (Nat × Nat × Nat) → List Nat → Bool
  | none, [] => true
  | some _, [] => false
  | none, b :: rest =>
    if b < 0x80 then validFrom none rest
    else if 0xC2 ≤ b && b ≤ 0xDF then validFrom (some (0x80, 0xBF, 0)) rest
    else if b = 0xE0 then validFrom (some (0xA0, 0xBF, 1)) rest
    else if (0xE1 ≤ b && b ≤ 0xEC) || b = 0xEE || b = 0xEF then
      validFrom (some (0x80, 0xBF, 1)) rest
    else if b = 0xED then validFrom (some (0x80, 0x9F, 1)) rest
    else if b = 0xF0 then validFrom (some (0x90, 0xBF, 2)) rest
    else if 0xF1 ≤ b && b ≤ 0xF3 then validFrom (some (0x80, 0xBF, 2)) rest
    else if b = 0xF4 then validFrom (some (0x80, 0x8F, 2)) rest
    else false
  | some (lo, hi, more), b :: rest =>
    if lo ≤ b && b ≤ hi then
      validFrom (if more = 0 then none else some (0x80, 0xBF, more - 1)) rest
    else false

/-- Go `utf8.ValidString`: the bytes are a sequence of well-formed UTF-8 characters. -/
def ValidString (s : GoString) : Bool := validFrom none s

/-! ## Data model (`Config`, `Host`, `Port`) -/

/-- Go `type Port struct { Port, Label string }`. -/
structure Port where
  Port : GoString
  Label : GoString
  deriving DecidableEq, Repr

/-- Go `type Host struct { IP, Describe string; Ports []Port }`. -/
structure Host where
  IP : GoString
  Describe : GoString
  Ports : List Port
  deriving DecidableEq, Repr

/-- Go `type Config struct { Import []string; Hosts []Host; LogLevel, Port string }`. -/
structure Config where
  Import : List GoString
  Hosts : List Host
  LogLevel : GoString
  Port : GoString
  deriving DecidableEq, Repr

/-- A Go `error` value, kept as its message. -/
abbrev Err := String

/-! ## Metric state (`portStatus`) -/

/-- The values of the variable labels `host, port, label, describe`, in that order. -/
abbrev LabelValues := GoString × GoString × GoString × GoString

/-- The children of the gauge vector `portStatus`: label values to gauge value. -/
abbrev MetricState := LabelValues → Option Int

/-- The gauge vector right after `prometheus.NewGaugeVec`: no child exists. -/
def emptyMetrics : MetricState := fun _ => none

/-- The check `WithLabelValues` makes on its arguments (their number, four, is
right by construction): every label value must be valid UTF-8. -/
def validLabelValues (lvs : LabelValues) : Bool :=
  ValidString lvs.1 && ValidString lvs.2.1 && ValidString lvs.2.2.1 && ValidString lvs.2.2.2

/-- The call `vec.WithLabelValues(lvs...).Set(v)` on accepted label values: get or
create the child for `lvs`, store `v`. -/
def setGauge (m : MetricState) (lvs : LabelValues) (v : Int) : MetricState :=
  fun k => if k = lvs then some v else m k

/-! ## Effects -/

/-- A `time.Duration`, in nanoseconds. -/
abbrev Duration := Nat

/-- Go `time.Second`. -/
def Second : Duration := 1000000000

/-- What one call of `net.DialTimeout` did; the resolver and the network decide it.
The call resolves the host and tries addresses it resolves to, within the one timeout. -/
inductive DialOutcome where
  /-- The call failed before any connection was attempted: the address was not
  accepted or the host name did not resolve. -/
  | rejected (err : Err)
  /-- An attempt succeeded; `failed` other attempts were made besides it. -/
  | connected (failed : Nat)
  /-- All `more + 1` attempts failed or ran out of time. -/
  | unreachable (more : Nat) (err : Err)
  deriving DecidableEq, Repr

/-- The `err` the call returns: `none` for `nil`. -/
def DialOutcome.err : DialOutcome → Option Err
  | .rejected err => some err
  | .connected _ => none
  | .unreachable _ err => some err

/-- The number of TCP connection attempts the call made. -/
def DialOutcome.attempts : DialOutcome → Nat
  | .rejected _ => 0
  | .connected failed => failed + 1
  | .unreachable more _ => more + 1

/-- The observable effects of the program. -/
inductive Effect where
  | dialTimeout (network : String) (address : GoString) (timeout : Duration)
  | connectAttempt (address : GoString)
  | connClose
  | gaugeSet (lvs : LabelValues) (v : Int)
  | logInfo (msg : GoString) (fields : List (String × GoString))
  | logError (msg : GoString) (fields : List (String × GoString)) (err : Err)
  | logFatal (msg : GoString) (err : Err)
  | printf (text : String)
  | buildLogger (logLevel : String)
  | goScheduler
  | goCheckPort (host : Host) (port : Port)
  | sleep (d : Duration)
  | httpHandle (pattern : String)
  | listenAndServe (addr : GoString)
  | exit (code : Nat)
  | nilDereference
  | crash (reason : String)
  deriving DecidableEq, Repr

/-- The process-wide state the probes act on: the gauge vector, the effects so
far, and whether a goroutine has panicked (which ends the process). -/
structure World where
  portStatus : MetricState
  trace : List Effect
  crashed : Bool

/-- The world at process start. -/
def World.init : World := ⟨emptyMetrics, [], false⟩

/-! ## `checkPort` -/

/-- Go `net.JoinHostPort`: a host containing a colon (byte `0x3A`) is taken to be
a literal IPv6 address and is put in square brackets. -/
def JoinHostPort (host port : GoString) : GoString :=
  if host.elem 0x3A then
    GoString.ofString "[" ++ host ++ GoString.ofString "]:" ++ port
  else host ++ GoString.ofString ":" ++ port

/-- The label values `checkPort` passes to `WithLabelValues`. -/
def labelValues (host : Host) (port : Port) : LabelValues :=
  (host.IP, port.Port, port.Label, host.Describe)

/-- The zap fields shared by both log calls of `checkPort`. -/
def probeFields (host : Host) (port : Port) : List (String × GoString) :=
  [("host", host.IP), ("port", port.Port), ("label", port.Label), ("describe", host.Describe)]

/-- Go `checkPort(host, port)`, called in a running process.  `dial` is what
`net.DialTimeout("tcp", address, 1*time.Second)` did.  When `WithLabelValues`
rejects the label values it panics: `Set` and the log call are not reached. -/
def checkPort (w : World) (host : Host) (port : Port) (dial : DialOutcome) : World :=
  let address := JoinHostPort host.IP port.Port
  let dialed := w.trace ++ [Effect.dialTimeout "tcp" address (1 * Second)] ++
    List.replicate dial.attempts (Effect.connectAttempt address)
  match dial.err with
  | none =>
    if validLabelValues (labelValues host port) then
      { portStatus := setGauge w.portStatus (labelValues host port) 1
        trace := dialed ++
          [Effect.connClose,
           Effect.gaugeSet (labelValues host port) 1,
           Effect.logInfo "Port is up" (probeFields host port)]
        crashed := w.crashed }
    else
      { portStatus := w.portStatus
        trace := dialed ++ [Effect.connClose, Effect.crash "label value is not valid UTF-8"]
        crashed := true }
  | some err =>
    if validLabelValues (labelValues host port) then
      { portStatus := setGauge w.portStatus (labelValues host port) 0
        trace := dialed ++
          [Effect.gaugeSet (labelValues host port) 0,
           Effect.logError "Port is down" (probeFields host port) err]
        crashed := w.crashed }
    else
      { portStatus := w.portStatus
        trace := dialed ++ [Effect.crash "label value is not valid UTF-8"]
        crashed := true }

/-- One call of `checkPort`, with what its dial did. -/
structure ProbeCall where
  host : Host
  port : Port
  dial : DialOutcome
  deriving DecidableEq, Repr

/-- The gauge value a completed call stores: `1` when the dial returned no error, else `0`. -/
def ProbeCall.value (c : ProbeCall) : Int :=
  if c.dial.err.isNone then 1 else 0

/-- A finite sequence of `checkPort` calls, in completion order.  Once a call has
panicked the process is gone and no further call happens. -/
def runCalls (calls : List ProbeCall) (w : World) : World :=
  calls.foldl (fun acc c => if acc.crashed then acc else checkPort acc c.host c.port c.dial) w

/-- The effects one call of `checkPort` adds to the trace. -/
def probeEffects (w : World) (host : Host) (port : Port) (dial : DialOutcome) : List Effect :=
  (checkPort w host port dial).trace.drop w.trace.length

/-- The last call in the sequence made for the target `k`, if any. -/
def lastCallFor (k : LabelValues) (calls : List ProbeCall) : Option ProbeCall :=
  calls.reverse.find?
    (fun c => decide ((c.host.IP, c.port.Port, c.port.Label, c.host.Describe) = k))

/-- The calls of `net.DialTimeout` recorded in a trace. -/
def dialCalls (t : List Effect) : List Effect :=
  t.filter (fun e => match e with
    | Effect.dialTimeout _ _ _ => true
    | _ => false)

/-- The TCP connection attempts recorded in a trace. -/
def connectAttempts (t : List Effect) : List Effect :=
  t.filter (fun e => match e with
    | Effect.connectAttempt _ => true
    | _ => false)

/-! ## Configuration loading (`loadConfig`, `importConfigs`) -/

/-- The outside world of the loader: `ioutil.ReadFile`, `yaml.Unmarshal` into a
zero `Config`, and `filepath.Glob`.  File contents are byte lists. -/
structure Env where
  readFile : GoString → Except Err (List Nat)
  unmarshal : List Nat → Except Err Config
  glob : GoString → Except Err (List GoString)

/-- The body of `for _, file := range files` in `importConfigs`.  The result is
the configuration as mutated so far together with the returned `error`. -/
def importFiles (env : Env) : Config → List GoString → Config × Option Err
  | config, [] => (config, none)
  | config, file :: files =>
    match env.readFile file with
    | .error err => (config, some err)
    | .ok data =>
      match env.unmarshal data with
      | .error err => (config, some err)
      | .ok importedConfig =>
        importFiles env { config with Hosts := config.Hosts ++ importedConfig.Hosts } files

/-- Go `importConfigs(config, importPath)`: `config` is updated in place, the
returned pair is its final content and the returned `error`. -/
def importConfigs (env : Env) (config : Config) (importPath : GoString) : Config × Option Err :=
  match env.glob importPath with
  | .error err => (config, some err)
  | .ok files => importFiles env config files

/-- The loop `for _, importPath := range config.Import` of `loadConfig` and its
final `return &config, nil`. -/
def importAll (env : Env) : Config → List GoString → Option Config × Option Err
  | config, [] => (some config, none)
  | config, importPath :: rest =>
    match importConfigs env config importPath with
    | (_, some err) => (none, some err)
    | (config1, none) => importAll env config1 rest

/-- Go `loadConfig(filename)`, returning the pair `(*Config, error)`. -/
def loadConfig (env : Env) (filename : GoString) : Option Config × Option Err :=
  match env.readFile filename with
  | .error err => (none, some err)
  | .ok data =>
    match env.unmarshal data with
    | .error err => (none, some err)
    | .ok config => importAll env config config.Import

/-- The main document decodes: `ReadFile` and `Unmarshal` both succeed. -/
def decodeFile (env : Env) (file : GoString) : Except Err Config :=
  match env.readFile file with
  | .error err => .error err
  | .ok data => env.unmarshal data

/-- A file is readable and well-formed. -/
def fileOk (env : Env) (file : GoString) : Bool :=
  match decodeFile env file with
  | .ok _ => true
  | .error _ => false

/-- The hosts a readable, well-formed file holds (none otherwise). -/
def fileHosts (env : Env) (file : GoString) : List Host :=
  match decodeFile env file with
  | .ok c => c.Hosts
  | .error _ => []

/-- The pattern is a valid glob pattern. -/
def patternOk (env : Env) (pattern : GoString) : Bool :=
  match env.glob pattern with
  | .ok _ => true
  | .error _ => false

/-- The files a valid pattern matches, in glob order (none for an invalid pattern). -/
def matched (env : Env) (pattern : GoString) : List GoString :=
  match env.glob pattern with
  | .ok files => files
  | .error _ => []

/-- The pattern is valid and every file it matches is readable and well-formed. -/
def importOk (env : Env) (pattern : GoString) : Bool :=
  patternOk env pattern && (matched env pattern).all (fileOk env)

/-! ## The scheduler goroutine -/

/-- The scheduler's view: the shared world and the probes spawned but not yet completed. -/
structure SchedState where
  world : World
  inflight : List (Host × Port)

/-- The state when the scheduler goroutine starts. -/
def SchedState.init : SchedState := ⟨World.init, []⟩

/-- The statement `go checkPort(host, port)`: the arguments are evaluated at the `go`. -/
def goCheckPort (s : SchedState) (host : Host) (port : Port) : SchedState :=
  { world := { s.world with trace := s.world.trace ++ [Effect.goCheckPort host port] }
    inflight := s.inflight ++ [(host, port)] }

/-- The loop `for _, port := range host.Ports`. -/
def dispatchPorts (host : Host) (ports : List Port) (s : SchedState) : SchedState :=
  ports.foldl (fun acc port => goCheckPort acc host port) s

/-- The loop `for _, host := range config.Hosts`. -/
def dispatchHosts (hosts : List Host) (s : SchedState) : SchedState :=
  hosts.foldl (fun acc host => dispatchPorts host host.Ports acc) s

/-- One iteration of the scheduler's outer `for`: dispatch, then `time.Sleep(10 * time.Second)`. -/
def schedCycle (config : Config) (s : SchedState) : SchedState :=
  let s1 := dispatchHosts config.Hosts s
  { s1 with world := { s1.world with trace := s1.world.trace ++ [Effect.sleep (10 * Second)] } }

/-- Every host of the list paired with every one of its port specs, in list order. -/
def targetsOf (hosts : List Host) : List (Host × Port) :=
  hosts.flatMap (fun host => host.Ports.map (fun port => (host, port)))

/-- The probes one cycle started from `s` dispatches, in dispatch order. -/
def dispatched (config : Config) (s : SchedState) : List (Host × Port) :=
  (schedCycle config s).inflight.drop s.inflight.length

/-- The in-flight probe at position `i` runs `checkPort` to completion with dial
outcome `dial`; nothing happens when there is no such probe. -/
def complete (s : SchedState) (i : Nat) (dial : DialOutcome) : SchedState :=
  match s.inflight[i]? with
  | none => s
  | some (host, port) =>
    { world := checkPort s.world host port dial
      inflight := s.inflight.eraseIdx i }

/-- What can happen next: the scheduler runs a cycle, or some in-flight probe completes. -/
inductive SchedEvent where
  | cycle
  | complete (i : Nat) (dial : DialOutcome)
  deriving DecidableEq, Repr

/-- One step of the scheduler and its probes.  Nothing happens any more once a
probe has panicked: the process is gone. -/
def schedStep (config : Config) (s : SchedState) (ev : SchedEvent) : SchedState :=
  if s.world.crashed then s
  else
    match ev with
    | .cycle => schedCycle config s
    | .complete i dial => complete s i dial

/-- A finite run of the scheduler and its probes from the start state. -/
def schedRun (config : Config) (events : List SchedEvent) : SchedState :=
  events.foldl (schedStep config) SchedState.init

/-- The invariant of the scheduler: in-flight probes and metric keys come from the configuration. -/
def SchedInv (config : Config) (s : SchedState) : Prop :=
  (∀ hp ∈ s.inflight, hp ∈ targetsOf config.Hosts) ∧
  (∀ k, s.world.portStatus k ≠ none → ∃ hp ∈ targetsOf config.Hosts, k = labelValues hp.1 hp.2)

/-! ## `main`: the command's `Run` -/

/-- The zap level `initLogger` selects for a `log_level`. -/
def loggerLevel (logLevel : GoString) : String :=
  if logLevel = "debug" then "debug"
  else if logLevel = "info" then "info"
  else if logLevel = "error" then "error"
  else if logLevel = "off" then "fatal"
  else "info"

/-- Go `initLogger(logLevel)`; `buildErr` is the `err` of `cfg.Build()`.  The
result is the effects and whether the process is still running. -/
def initLogger (logLevel : GoString) (buildErr : Option Err) : List Effect × Bool :=
  match buildErr with
  | none => ([Effect.buildLogger (loggerLevel logLevel)], true)
  | some err =>
    ([Effect.buildLogger (loggerLevel logLevel),
      Effect.printf ("Error initializing logger: " ++ err ++ "\n"),
      Effect.exit 1], false)

/-- The effects of the main goroutine in the command's `Run` function, up to the
call of `http.ListenAndServe` and, when that call returns (`listenErr` is its
error), to the exit.  The scheduler goroutine exists from `goScheduler` on; it
is the only caller of `checkPort`. -/
def Run (env : Env) (configFile : GoString) (buildErr listenErr : Option Err) : List Effect :=
  match loadConfig env configFile with
  | (_, some err) =>
    [Effect.printf ("Error loading config file: " ++ err ++ "\n"), Effect.exit 1]
  | (none, none) => [Effect.nilDereference]
  | (some config, none) =>
    match initLogger config.LogLevel buildErr with
    | (effs, false) => effs
    | (effs, true) =>
      effs ++
        [Effect.goScheduler,
         Effect.httpHandle "/metrics",
         Effect.logInfo (GoString.ofString "Serving metrics on :" ++ config.Port) [],
         Effect.listenAndServe (GoString.ofString ":" ++ config.Port)] ++
        match listenErr with
        | none => []
        | some err => [Effect.logFatal "Error starting HTTP server" err, Effect.exit 1]

/-- The effect starts the scheduler, spawns or performs a probe, or binds the serving endpoint. -/
def Effect.probesOrServes : Effect → Bool
  | .goScheduler => true
  | .goCheckPort _ _ => true
  | .dialTimeout _ _ _ => true
  | .connectAttempt _ => true
  | .listenAndServe _ => true
  | _ => false

/-! ## A concrete file system -/

/-- The host every example document lists. -/
def exampleHost : Host := ⟨"10.0.0.1", "db", [⟨"5432", "pg"⟩, ⟨"22", "ssh"⟩]⟩

/-- A small file system: documents are one-byte files, decoded by table.
`config.yaml` imports `conf.d/*.yaml`, which matches two documents holding the
same host, the first of them with an import list of its own;
`lonely.yaml` imports a pattern that matches nothing; `broken.yaml` imports a
pattern that matches a malformed document; `badglob.yaml` imports an invalid
pattern. -/
def exampleEnv : Env where
  readFile := fun file =>
    if file = "config.yaml" then .ok [1]
    else if file = "conf.d/a.yaml" then .ok [2]
    else if file = "conf.d/b.yaml" then .ok [3]
    else if file = "nested/c.yaml" then .ok [3]
    else if file = "lonely.yaml" then .ok [4]
    else if file = "broken.yaml" then .ok [5]
    else if file = "bad.d/x.yaml" then .ok [0]
    else if file = "badglob.yaml" then .ok [6]
    else .error "open: no such file or directory"
  unmarshal := fun data =>
    if data = [1] then .ok ⟨["conf.d/*.yaml"], [⟨"10.0.0.9", "web", [⟨"80", "http"⟩]⟩], "info", "9100"⟩
    else if data = [2] then .ok ⟨["nested/*.yaml"], [exampleHost], "", ""⟩
    else if data = [3] then .ok ⟨[], [exampleHost], "", ""⟩
    else if data = [4] then .ok ⟨["none.d/*.yaml"], [exampleHost], "debug", "9100"⟩
    else if data = [5] then .ok ⟨["conf.d/*.yaml", "bad.d/*.yaml"], [], "info", "9100"⟩
    else if data = [6] then .ok ⟨["["], [exampleHost], "info", "9100"⟩
    else .error "yaml: unmarshal errors"
  glob := fun pattern =>
    if pattern = "conf.d/*.yaml" then .ok ["conf.d/a.yaml", "conf.d/b.yaml"]
    else if pattern = "nested/*.yaml" then .ok ["nested/c.yaml"]
    else if pattern = "bad.d/*.yaml" then .ok ["bad.d/x.yaml"]
    else if pattern = "[" then .error "syntax error in pattern"
    else .ok []

/-! ## Theorems: Go strings -/

theorem validFrom_cont (lo hi more b : Nat) (rest : List Nat) (h1 : lo ≤ b) (h2 : b ≤ hi) :
    validFrom (some (lo, hi, more)) (b :: rest) =
      validFrom (if more = 0 then none else some (0x80, 0xBF, more - 1)) rest := by
  simp [validFrom, h1, h2]

theorem validFrom_lead (b : Nat) (rest : List Nat) (h1 : 0x80 ≤ b) :
    validFrom none (b :: rest) =
      if 0xC2 ≤ b ∧ b ≤ 0xDF then validFrom (some (0x80, 0xBF, 0)) rest
      else if b = 0xE0 then validFrom (some (0xA0, 0xBF, 1)) rest
      else if (0xE1 ≤ b ∧ b ≤ 0xEC) ∨ b = 0xEE ∨ b = 0xEF then
        validFrom (some (0x80, 0xBF, 1)) rest
      else if b = 0xED then validFrom (some (0x80, 0x9F, 1)) rest
      else if b = 0xF0 then validFrom (some (0x90, 0xBF, 2)) rest
      else if 0xF1 ≤ b ∧ b ≤ 0xF3 then validFrom (some (0x80, 0xBF, 2)) rest
      else if b = 0xF4 then validFrom (some (0x80, 0x8F, 2)) rest
      else false := by
  have h : ¬ b < 0x80 := by omega
  rw [validFrom]
  simp [h, or_assoc]

theorem validFrom_encode (c : Char) (rest : List Nat) :
    validFrom none (utf8EncodeChar c ++ rest) = validFrom none rest := by
  have hv : c.toNat < 0xd800 ∨ (0xdfff < c.toNat ∧ c.toNat < 0x110000) := c.valid
  unfold utf8EncodeChar
  generalize c.toNat = v at hv
  simp only
  by_cases h1 : v < 0x80
  · simp [h1, validFrom]
  by_cases h2 : v < 0x800
  · simp only [h1, h2, if_false, if_true, List.cons_append, List.nil_append]
    rw [validFrom_lead _ _ (by omega), if_pos (by omega),
      validFrom_cont _ _ _ _ _ (by omega) (by omega)]
    simp
  by_cases h3 : v < 0x10000
  · simp only [h1, h2, h3, if_false, if_true, List.cons_append, List.nil_append]
    rw [validFrom_lead _ _ (by omega), if_neg (by omega)]
    by_cases q0 : v / 4096 = 0
    · rw [if_pos (by omega), validFrom_cont _ _ _ _ _ (by omega) (by omega)]
      simp only [one_ne_zero, if_false]
      rw [validFrom_cont _ _ _ _ _ (by omega) (by omega)]
      simp
    rw [if_neg (by omega)]
    by_cases q13 : v / 4096 = 13
    · rw [if_neg (by omega), if_pos (by omega), validFrom_cont _ _ _ _ _ (by omega) (by omega)]
      simp only [one_ne_zero, if_false]
      rw [validFrom_cont _ _ _ _ _ (by omega) (by omega)]
      simp
    · rw [if_pos (by omega), validFrom_cont _ _ _ _ _ (by omega) (by omega)]
      simp only [one_ne_zero, if_false]
      rw [validFrom_cont _ _ _ _ _ (by omega) (by omega)]
      simp
  · simp only [h1, h2, h3, if_false, List.cons_append, List.nil_append]
    rw [validFrom_lead _ _ (by omega), if_neg (by omega), if_neg (by omega), if_neg (by omega),
      if_neg (by omega)]
    by_cases q0 : v / 262144 = 0
    · rw [if_pos (by omega), validFrom_cont _ _ _ _ _ (by omega) (by omega)]
      simp only [OfNat.ofNat_ne_zero, if_false]
      rw [validFrom_cont _ _ _ _ _ (by omega) (by omega)]
      simp only [Nat.add_one_sub_one, one_ne_zero, if_false]
      rw [validFrom_cont _ _ _ _ _ (by omega) (by omega)]
      simp
    rw [if_neg (by omega)]
    by_cases q4 : v / 262144 = 4
    · rw [if_neg (by omega), if_pos (by omega), validFrom_cont _ _ _ _ _ (by omega) (by omega)]
      simp only [OfNat.ofNat_ne_zero, if_false]
      rw [validFrom_cont _ _ _ _ _ (by omega) (by omega)]
      simp only [Nat.add_one_sub_one, one_ne_zero, if_false]
      rw [validFrom_cont _ _ _ _ _ (by omega) (by omega)]
      simp
    · rw [if_pos (by omega), validFrom_cont _ _ _ _ _ (by omega) (by omega)]
      simp only [OfNat.ofNat_ne_zero, if_false]
      rw [validFrom_cont _ _ _ _ _ (by omega) (by omega)]
      simp only [Nat.add_one_sub_one, one_ne_zero, if_false]
      rw [validFrom_cont _ _ _ _ _ (by omega) (by omega)]
      simp

/-- The bytes of a text are always valid UTF-8. -/
theorem validString_ofString (s : String) : ValidString (GoString.ofString s) = true := by
  unfold ValidString GoString.ofString
  induction s.data with
  | nil => rfl
  | cons c cs ih => rw [List.flatMap_cons, validFrom_encode]; exact ih

/-! ## Theorems: `checkPort` and the metric state -/

theorem checkPort_portStatus_eq (w : World) (host : Host) (port : Port) (dial : DialOutcome) :
    (checkPort w host port dial).portStatus =
      if validLabelValues (labelValues host port) then
        setGauge w.portStatus (labelValues host port) (if dial.err.isNone then 1 else 0)
      else w.portStatus := by
  unfold checkPort
  cases dial.err <;> by_cases hv : validLabelValues (labelValues host port) = true <;> simp [hv]

theorem checkPort_crashed (w : World) (host : Host) (port : Port) (dial : DialOutcome) :
    (checkPort w host port dial).crashed =
      (w.crashed || !validLabelValues (labelValues host port)) := by
  unfold checkPort
  cases dial.err <;> by_cases hv : validLabelValues (labelValues host port) = true <;> simp [hv]

theorem checkPort_trace_eq (w : World) (host : Host) (port : Port) (dial : DialOutcome) :
    ∃ rest, (checkPort w host port dial).trace =
      w.trace ++ (Effect.dialTimeout "tcp" (JoinHostPort host.IP port.Port) 1000000000 ::
        (List.replicate dial.attempts (Effect.connectAttempt (JoinHostPort host.IP port.Port)) ++
          rest)) ∧
      dialCalls rest = [] ∧ connectAttempts rest = [] := by
  unfold checkPort
  cases dial.err with
  | none =>
    by_cases hv : validLabelValues (labelValues host port) = true
    · exact ⟨[Effect.connClose, Effect.gaugeSet (labelValues host port) 1,
        Effect.logInfo "Port is up" (probeFields host port)],
        by simp [hv, Second], by simp [dialCalls], by simp [connectAttempts]⟩
    · exact ⟨[Effect.connClose, Effect.crash "label value is not valid UTF-8"],
        by simp [hv, Second], by simp [dialCalls], by simp [connectAttempts]⟩
  | some err =>
    by_cases hv : validLabelValues (labelValues host port) = true
    · exact ⟨[Effect.gaugeSet (labelValues host port) 0,
        Effect.logError "Port is down" (probeFields host port) err],
        by simp [hv, Second], by simp [dialCalls], by simp [connectAttempts]⟩
    · exact ⟨[Effect.crash "label value is not valid UTF-8"],
        by simp [hv, Second], by simp [dialCalls], by simp [connectAttempts]⟩

theorem runCalls_snoc (xs : List ProbeCall) (c : ProbeCall) (w : World) :
    runCalls (xs ++ [c]) w =
      if (runCalls xs w).crashed then runCalls xs w
      else checkPort (runCalls xs w) c.host c.port c.dial := by
  simp [runCalls, List.foldl_append]

theorem runCalls_portStatus_lookup (calls : List ProbeCall) (k : LabelValues)
    (hdone : (runCalls calls World.init).crashed = false) :
    (runCalls calls World.init).portStatus k = (lastCallFor k calls).map ProbeCall.value := by
  induction calls using List.reverseRecOn with
  | nil => rfl
  | append_singleton xs c ih =>
    rw [runCalls_snoc] at hdone ⊢
    by_cases hc : (runCalls xs World.init).crashed = true
    · rw [if_pos hc] at hdone
      rw [hc] at hdone
      exact absurd hdone (by decide)
    · rw [if_neg hc] at hdone ⊢
      have hc2 : (runCalls xs World.init).crashed = false := by simpa using hc
      rw [checkPort_crashed, hc2] at hdone
      have hvalid : validLabelValues (labelValues c.host c.port) = true := by simpa using hdone
      rw [checkPort_portStatus_eq, if_pos hvalid]
      unfold lastCallFor at *
      rw [List.reverse_append, List.reverse_singleton, List.singleton_append, List.find?_cons]
      by_cases hk : (c.host.IP, c.port.Port, c.port.Label, c.host.Describe) = k
      · simp [setGauge, labelValues, hk, ProbeCall.value]
      · have hk2 : ¬ k = (c.host.IP, c.port.Port, c.port.Label, c.host.Describe) :=
          fun h => hk h.symm
        simp [setGauge, labelValues, hk, hk2, ih hc2]

theorem runCalls_crashed_iff (calls : List ProbeCall) :
    (runCalls calls World.init).crashed = false ↔
      ∀ c ∈ calls, validLabelValues (labelValues c.host c.port) = true := by
  induction calls using List.reverseRecOn with
  | nil => simp [runCalls, World.init]
  | append_singleton xs c ih =>
    rw [runCalls_snoc]
    by_cases hc : (runCalls xs World.init).crashed = true
    · rw [if_pos hc]
      have hno : ¬ ∀ d ∈ xs, validLabelValues (labelValues d.host d.port) = true := by
        intro hall
        rw [ih.mpr hall] at hc
        exact absurd hc (by decide)
      constructor
      · intro h
        rw [hc] at h
        exact absurd h (by decide)
      · intro h
        exact absurd (fun d hd => h d (List.mem_append_left _ hd)) hno
    · rw [if_neg hc, checkPort_crashed]
      have hc2 : (runCalls xs World.init).crashed = false := by simpa using hc
      rw [hc2]
      constructor
      · intro h d hd
        rcases List.mem_append.mp hd with h1 | h1
        · exact ih.mp hc2 d h1
        · rw [List.mem_singleton.mp h1]
          simpa using h
      · intro h
        simpa using h c (by simp)

theorem runCalls_values (calls : List ProbeCall) (k : LabelValues) (v : Int)
    (h : (runCalls calls World.init).portStatus k = some v) : v = 0 ∨ v = 1 := by
  induction calls using List.reverseRecOn generalizing v with
  | nil => simp [runCalls, World.init, emptyMetrics] at h
  | append_singleton xs c ih =>
    rw [runCalls_snoc] at h
    by_cases hc : (runCalls xs World.init).crashed = true
    · rw [if_pos hc] at h
      exact ih v h
    · rw [if_neg hc, checkPort_portStatus_eq] at h
      by_cases hvalid : validLabelValues (labelValues c.host c.port) = true
      · rw [if_pos hvalid] at h
        unfold setGauge at h
        by_cases hk : k = labelValues c.host c.port
        · rw [if_pos hk] at h
          simp only [Option.some.injEq] at h
          subst h
          split <;> simp
        · rw [if_neg hk] at h
          exact ih v h
      · rw [if_neg hvalid] at h
        exact ih v h

theorem lastCallFor_split (k : LabelValues) (before after : List ProbeCall) (c : ProbeCall)
    (hc : (c.host.IP, c.port.Port, c.port.Label, c.host.Describe) = k)
    (hafter : ∀ d ∈ after, (d.host.IP, d.port.Port, d.port.Label, d.host.Describe) ≠ k) :
    lastCallFor k (before ++ c :: after) = some c := by
  unfold lastCallFor
  have hnone : after.reverse.find?
      (fun d => decide ((d.host.IP, d.port.Port, d.port.Label, d.host.Describe) = k)) = none := by
    rw [List.find?_eq_none]
    intro d hd
    simpa using hafter d (List.mem_reverse.mp hd)
  rw [List.reverse_append, List.reverse_cons, List.append_assoc, List.find?_append, hnone]
  simp [List.find?_cons, hc]

/-- C1 as stated fails: for a host whose `IP` is the single byte `0xFF`, which is
not valid UTF-8, `WithLabelValues` panics after a successful dial; no entry is
written under the host's 4-tuple and the process is gone. -/
theorem C1_counterexample :
    (checkPort World.init ⟨[0xFF], "db", []⟩ ⟨"5432", "pg"⟩ (.connected 0)).portStatus
        ([0xFF], "5432", "pg", "db") ≠ some 1 ∧
    (checkPort World.init ⟨[0xFF], "db", []⟩ ⟨"5432", "pg"⟩ (.connected 0)).portStatus
        ([0xFF], "5432", "pg", "db") = none ∧
    (checkPort World.init ⟨[0xFF], "db", []⟩ ⟨"5432", "pg"⟩ (.connected 0)).crashed = true := by
  decide

/-- C1 (amended): for every host and port spec whose four label values
`host.IP`, `port.Port`, `port.Label`, `host.Describe` are valid UTF-8, the
state after `checkPort(host, port)` is the state before with exactly the entry
keyed by `(host.IP, port.Port, port.Label, host.Describe)` set to `1` when the
dial returned no error and to `0` when it returned an error; the entry under
every other key is unchanged. -/
theorem C1_checkPort_sets_exactly_one_entry (w : World) (host : Host) (port : Port)
    (dial : DialOutcome)
    (hIP : ValidString host.IP = true) (hPort : ValidString port.Port = true)
    (hLabel : ValidString port.Label = true) (hDescribe : ValidString host.Describe = true) :
    (dial.err = none → (checkPort w host port dial).portStatus
        (host.IP, port.Port, port.Label, host.Describe) = some 1) ∧
    (dial.err ≠ none → (checkPort w host port dial).portStatus
        (host.IP, port.Port, port.Label, host.Describe) = some 0) ∧
    (∀ k, k ≠ (host.IP, port.Port, port.Label, host.Describe) →
      (checkPort w host port dial).portStatus k = w.portStatus k) := by
  have hvalid : validLabelValues (labelValues host port) = true := by
    simp [validLabelValues, labelValues, hIP, hPort, hLabel, hDescribe]
  rw [checkPort_portStatus_eq, if_pos hvalid]
  refine ⟨?_, ?_, ?_⟩
  · intro h
    simp [setGauge, labelValues, h]
  · intro h
    cases hd : dial.err with
    | none => exact absurd hd h
    | some err => simp [setGauge, labelValues]
  · intro k hk
    simp [setGauge, labelValues, hk]

theorem C1_witness :
    (checkPort World.init ⟨"10.0.0.1", "db", []⟩ ⟨"5432", "pg"⟩ (.connected 0)).portStatus
        ("10.0.0.1", "5432", "pg", "db") = some 1 ∧
    (checkPort World.init ⟨"10.0.0.1", "db", []⟩ ⟨"5432", "pg"⟩
        (.unreachable 0 "refused")).portStatus
        ("10.0.0.1", "5432", "pg", "db") = some 0 ∧
    (checkPort World.init ⟨"10.0.0.1", "db", []⟩ ⟨"5432", "pg"⟩
        (.unreachable 0 "refused")).portStatus
        ("10.0.0.2", "5432", "pg", "db") = none :=
  ⟨(C1_checkPort_sets_exactly_one_entry World.init ⟨"10.0.0.1", "db", []⟩ ⟨"5432", "pg"⟩
      (.connected 0) (by decide) (by decide) (by decide) (by decide)).1 (by decide),
   (C1_checkPort_sets_exactly_one_entry World.init ⟨"10.0.0.1", "db", []⟩ ⟨"5432", "pg"⟩
      (.unreachable 0 "refused") (by decide) (by decide) (by decide) (by decide)).2.1
      (by decide),
   (C1_checkPort_sets_exactly_one_entry World.init ⟨"10.0.0.1", "db", []⟩ ⟨"5432", "pg"⟩
      (.unreachable 0 "refused") (by decide) (by decide) (by decide) (by decide)).2.2
      ("10.0.0.2", "5432", "pg", "db") (by decide)⟩

/-- C2: starting from the empty metric state, after any finite sequence of
`checkPort` calls that all completed (none panicked), an entry exists under a
4-tuple exactly when some call of the sequence was made for a host and port
spec with that 4-tuple `(host.IP, port.Port, port.Label, host.Describe)`, and
its value is the one of the last such call: `1` if that call's dial succeeded,
`0` if it failed. -/
theorem C2_last_write_wins (calls : List ProbeCall) (k : LabelValues)
    (hdone : (runCalls calls World.init).crashed = false) :
    (((runCalls calls World.init).portStatus k).isSome ↔
      ∃ c ∈ calls, (c.host.IP, c.port.Port, c.port.Label, c.host.Describe) = k) ∧
    (∀ before c after, calls = before ++ c :: after →
      (c.host.IP, c.port.Port, c.port.Label, c.host.Describe) = k →
      (∀ d ∈ after, (d.host.IP, d.port.Port, d.port.Label, d.host.Describe) ≠ k) →
      (runCalls calls World.init).portStatus k = some (if c.dial.err = none then 1 else 0)) := by
  rw [runCalls_portStatus_lookup calls k hdone]
  refine ⟨?_, ?_⟩
  · rw [lastCallFor]
    simp [List.find?_isSome]
  · intro before c after hsplit hc hafter
    rw [hsplit, lastCallFor_split k before after c hc hafter]
    cases hd : c.dial.err <;> simp [ProbeCall.value, hd]

theorem C2_witness :
    ((runCalls
        [⟨⟨"10.0.0.1", "db", []⟩, ⟨"5432", "pg"⟩, .connected 0⟩,
         ⟨⟨"10.0.0.2", "db", []⟩, ⟨"5432", "pg"⟩, .connected 0⟩,
         ⟨⟨"10.0.0.1", "db", []⟩, ⟨"5432", "pg"⟩, .unreachable 0 "refused"⟩,
         ⟨⟨"10.0.0.2", "db", []⟩, ⟨"5432", "pg"⟩, .connected 1⟩]
        World.init).crashed = false ∧
      (runCalls
        [⟨⟨"10.0.0.1", "db", []⟩, ⟨"5432", "pg"⟩, .connected 0⟩,
         ⟨⟨"10.0.0.2", "db", []⟩, ⟨"5432", "pg"⟩, .connected 0⟩,
         ⟨⟨"10.0.0.1", "db", []⟩, ⟨"5432", "pg"⟩, .unreachable 0 "refused"⟩,
         ⟨⟨"10.0.0.2", "db", []⟩, ⟨"5432", "pg"⟩, .connected 1⟩]
        World.init).portStatus ("10.0.0.2", "5432", "pg", "db") = some 1 ∧
      (runCalls
        [⟨⟨"10.0.0.1", "db", []⟩, ⟨"5432", "pg"⟩, .connected 0⟩,
         ⟨⟨"10.0.0.2", "db", []⟩, ⟨"5432", "pg"⟩, .connected 0⟩,
         ⟨⟨"10.0.0.1", "db", []⟩, ⟨"5432", "pg"⟩, .unreachable 0 "refused"⟩,
         ⟨⟨"10.0.0.2", "db", []⟩, ⟨"5432", "pg"⟩, .connected 1⟩]
        World.init).portStatus ("10.0.0.3", "5432", "pg", "db") = none) ∧
    (runCalls
        [⟨⟨"10.0.0.1", "db", []⟩, ⟨"5432", "pg"⟩, .connected 0⟩,
         ⟨⟨"10.0.0.2", "db", []⟩, ⟨"5432", "pg"⟩, .connected 0⟩,
         ⟨⟨"10.0.0.1", "db", []⟩, ⟨"5432", "pg"⟩, .unreachable 0 "refused"⟩,
         ⟨⟨"10.0.0.2", "db", []⟩, ⟨"5432", "pg"⟩, .connected 1⟩]
        World.init).portStatus ("10.0.0.1", "5432", "pg", "db") = some 0 :=
  ⟨by decide,
   (C2_last_write_wins
    [⟨⟨"10.0.0.1", "db", []⟩, ⟨"5432", "pg"⟩, .connected 0⟩,
     ⟨⟨"10.0.0.2", "db", []⟩, ⟨"5432", "pg"⟩, .connected 0⟩,
     ⟨⟨"10.0.0.1", "db", []⟩, ⟨"5432", "pg"⟩, .unreachable 0 "refused"⟩,
     ⟨⟨"10.0.0.2", "db", []⟩, ⟨"5432", "pg"⟩, .connected 1⟩]
    ("10.0.0.1", "5432", "pg", "db") (by decide)).2
    [⟨⟨"10.0.0.1", "db", []⟩, ⟨"5432", "pg"⟩, .connected 0⟩,
     ⟨⟨"10.0.0.2", "db", []⟩, ⟨"5432", "pg"⟩, .connected 0⟩]
    ⟨⟨"10.0.0.1", "db", []⟩, ⟨"5432", "pg"⟩, .unreachable 0 "refused"⟩
    [⟨⟨"10.0.0.2", "db", []⟩, ⟨"5432", "pg"⟩, .connected 1⟩]
    (by rfl) (by decide) (by decide)⟩

/-- C6: in every metric state reached from the empty state by a sequence of
`checkPort` calls, every present entry has value exactly `0` or exactly `1`. -/
theorem C6_values_zero_or_one (calls : List ProbeCall) (k : LabelValues) (v : Int)
    (h : (runCalls calls World.init).portStatus k = some v) : v = 0 ∨ v = 1 :=
  runCalls_values calls k v h

theorem C6_witness :
    (runCalls [⟨⟨"10.0.0.1", "db", []⟩, ⟨"5432", "pg"⟩, .unreachable 0 "refused"⟩]
        World.init).portStatus
        ("10.0.0.1", "5432", "pg", "db") = some 0 ∧ ((0 : Int) = 0 ∨ (0 : Int) = 1) :=
  ⟨by decide, C6_values_zero_or_one
    [⟨⟨"10.0.0.1", "db", []⟩, ⟨"5432", "pg"⟩, .unreachable 0 "refused"⟩]
    ("10.0.0.1", "5432", "pg", "db") 0 (by decide)⟩

/-- C7 as stated fails twice.  For the host `::1` and the port `80` the dial of
`checkPort` goes to `[::1]:80`, not to the host, a colon and the port.  And the
number of TCP connection attempts of one call is not always one: two when the
host name resolves to two addresses and the first attempt fails, none when the
address is rejected before connecting (port `99999`). -/
theorem C7_counterexample :
    dialCalls (probeEffects World.init ⟨"::1", "loopback", []⟩ ⟨"80", "http"⟩ (.connected 0)) =
      [Effect.dialTimeout "tcp" "[::1]:80" 1000000000] ∧
    dialCalls (probeEffects World.init ⟨"::1", "loopback", []⟩ ⟨"80", "http"⟩ (.connected 0)) ≠
      [Effect.dialTimeout "tcp"
        (GoString.ofString "::1" ++ GoString.ofString ":" ++ GoString.ofString "80")
        1000000000] ∧
    (connectAttempts (probeEffects World.init ⟨"db.example.org", "database", []⟩
      ⟨"5432", "pg"⟩ (.connected 1))).length = 2 ∧
    (connectAttempts (probeEffects World.init ⟨"10.0.0.1", "db", []⟩
      ⟨"99999", "pg"⟩ (.rejected "invalid port"))).length = 0 := by
  decide

/-- C7 (amended): one call of `checkPort` calls `net.DialTimeout` exactly once,
whether it succeeds or fails, with a timeout of one second, for the address
`net.JoinHostPort(host.IP, port.Port)`: the host, a colon and the port when
the host contains no colon, and the host in square brackets, a colon and the
port when it does.  The TCP connection attempts of the call are the ones that
single dial makes, all for that address: none, one or several. -/
theorem C7_single_dial_one_second (w : World) (host : Host) (port : Port)
    (dial : DialOutcome) :
    dialCalls (probeEffects w host port dial) =
      [Effect.dialTimeout "tcp"
        (if host.IP.elem 0x3A then
          GoString.ofString "[" ++ host.IP ++ GoString.ofString "]:" ++ port.Port
        else host.IP ++ GoString.ofString ":" ++ port.Port)
        1000000000] ∧
    connectAttempts (probeEffects w host port dial) =
      List.replicate dial.attempts
        (Effect.connectAttempt
          (if host.IP.elem 0x3A then
            GoString.ofString "[" ++ host.IP ++ GoString.ofString "]:" ++ port.Port
          else host.IP ++ GoString.ofString ":" ++ port.Port)) := by
  obtain ⟨rest, htrace, hdial, hconn⟩ := checkPort_trace_eq w host port dial
  unfold probeEffects
  rw [htrace, List.drop_left]
  have haddr : JoinHostPort host.IP port.Port =
      (if host.IP.elem 0x3A then
          GoString.ofString "[" ++ host.IP ++ GoString.ofString "]:" ++ port.Port
        else host.IP ++ GoString.ofString ":" ++ port.Port) := rfl
  rw [← haddr]
  constructor
  · unfold dialCalls at hdial ⊢
    rw [List.filter_cons, List.filter_append, hdial]
    simp [List.filter_eq_nil_iff, List.mem_replicate]
  · unfold connectAttempts at hconn ⊢
    rw [List.filter_cons, List.filter_append, hconn]
    simp [List.filter_eq_self, List.mem_replicate]

/-! ## Theorems: the scheduler -/

theorem dispatchPorts_eq (host : Host) (ports : List Port) (s : SchedState) :
    dispatchPorts host ports s =
      { world := { s.world with
          trace := s.world.trace ++ ports.map (fun port => Effect.goCheckPort host port) }
        inflight := s.inflight ++ ports.map (fun port => (host, port)) } := by
  induction ports generalizing s with
  | nil => simp [dispatchPorts]
  | cons port rest ih =>
    have hstep : dispatchPorts host (port :: rest) s =
        dispatchPorts host rest (goCheckPort s host port) := rfl
    rw [hstep, ih]
    simp [goCheckPort]

theorem dispatchHosts_eq (hosts : List Host) (s : SchedState) :
    dispatchHosts hosts s =
      { world := { s.world with
          trace := s.world.trace ++
            (targetsOf hosts).map (fun hp => Effect.goCheckPort hp.1 hp.2) }
        inflight := s.inflight ++ targetsOf hosts } := by
  induction hosts generalizing s with
  | nil => simp [dispatchHosts, targetsOf]
  | cons host rest ih =>
    have hstep : dispatchHosts (host :: rest) s =
        dispatchHosts rest (dispatchPorts host host.Ports s) := rfl
    rw [hstep, ih, dispatchPorts_eq]
    simp [targetsOf, List.flatMap_cons, Function.comp_def]

theorem schedCycle_eq (config : Config) (s : SchedState) :
    schedCycle config s =
      { world := { s.world with
          trace := s.world.trace ++
            (targetsOf config.Hosts).map (fun hp => Effect.goCheckPort hp.1 hp.2) ++
            [Effect.sleep 10000000000] }
        inflight := s.inflight ++ targetsOf config.Hosts } := by
  simp [schedCycle, dispatchHosts_eq, Second]

theorem mem_targetsOf (hosts : List Host) (hp : Host × Port) :
    hp ∈ targetsOf hosts ↔ hp.1 ∈ hosts ∧ hp.2 ∈ hp.1.Ports := by
  obtain ⟨h, p⟩ := hp
  simp only [targetsOf, List.mem_flatMap, List.mem_map, Prod.mk.injEq]
  constructor
  · rintro ⟨host, hmem, port, hport, rfl, rfl⟩
    exact ⟨hmem, hport⟩
  · rintro ⟨hmem, hport⟩
    exact ⟨h, hmem, p, hport, rfl, rfl⟩

theorem schedInv_init (config : Config) : SchedInv config SchedState.init := by
  constructor
  · intro hp h
    simp [SchedState.init] at h
  · intro k h
    simp [SchedState.init, World.init, emptyMetrics] at h

theorem schedInv_step (config : Config) (s : SchedState) (ev : SchedEvent)
    (h : SchedInv config s) : SchedInv config (schedStep config s ev) := by
  unfold schedStep
  by_cases hcrash : s.world.crashed = true
  · rw [if_pos hcrash]
    exact h
  rw [if_neg hcrash]
  obtain ⟨hin, hkeys⟩ := h
  cases ev with
  | cycle =>
    simp only [schedCycle_eq]
    refine ⟨?_, hkeys⟩
    intro hp hmem
    rcases List.mem_append.mp hmem with h1 | h2
    · exact hin hp h1
    · exact h2
  | complete i dial =>
    simp only [complete]
    cases hget : s.inflight[i]? with
    | none => exact ⟨hin, hkeys⟩
    | some hp =>
      obtain ⟨host, port⟩ := hp
      have hmem : (host, port) ∈ s.inflight := by
        obtain ⟨hlt, heq⟩ := List.getElem?_eq_some.mp hget
        exact heq ▸ List.getElem_mem hlt
      refine ⟨?_, ?_⟩
      · intro hp hp_mem
        exact hin hp (List.mem_of_mem_eraseIdx hp_mem)
      · intro k hk
        rw [checkPort_portStatus_eq] at hk
        by_cases hkey : k = labelValues host port
        · exact ⟨(host, port), hin _ hmem, hkey⟩
        · by_cases hvalid : validLabelValues (labelValues host port) = true
          · rw [if_pos hvalid] at hk
            unfold setGauge at hk
            rw [if_neg hkey] at hk
            exact hkeys k hk
          · rw [if_neg hvalid] at hk
            exact hkeys k hk

theorem schedInv_run (config : Config) (events : List SchedEvent) :
    SchedInv config (schedRun config events) := by
  induction events using List.reverseRecOn with
  | nil => exact schedInv_init config
  | append_singleton evs ev ih =>
    have hrun : schedRun config (evs ++ [ev]) = schedStep config (schedRun config evs) ev := by
      simp [schedRun, List.foldl_append]
    rw [hrun]
    exact schedInv_step config _ ev ih

/-- C5: in every metric state reached from the empty state by scheduler cycles
over a configuration and completions of the dispatched probes, with any dial
results and in any order, the key of every `port_status` entry is
`(host.IP, port.Port, port.Label, host.Describe)` for some host of the
configuration's `Hosts` and some port spec of that host's `Ports`. -/
theorem C5_entries_come_from_config (config : Config) (events : List SchedEvent)
    (k : LabelValues) (h : (schedRun config events).world.portStatus k ≠ none) :
    ∃ host ∈ config.Hosts, ∃ port ∈ host.Ports,
      k = (host.IP, port.Port, port.Label, host.Describe) := by
  obtain ⟨hp, hmem, hk⟩ := (schedInv_run config events).2 k h
  exact ⟨hp.1, ((mem_targetsOf _ hp).mp hmem).1, hp.2, ((mem_targetsOf _ hp).mp hmem).2, hk⟩

theorem C5_witness :
    (schedRun ⟨[], [⟨"10.0.0.1", "db", [⟨"5432", "pg"⟩]⟩], "info", "9100"⟩
        [SchedEvent.cycle, SchedEvent.complete 0 (.connected 0)]).world.portStatus
        ("10.0.0.1", "5432", "pg", "db") ≠ none ∧
    ∃ host ∈ [(⟨"10.0.0.1", "db", [⟨"5432", "pg"⟩]⟩ : Host)], ∃ port ∈ host.Ports,
      (("10.0.0.1", "5432", "pg", "db") : LabelValues) =
        (host.IP, port.Port, port.Label, host.Describe) :=
  ⟨by decide, C5_entries_come_from_config
    ⟨[], [⟨"10.0.0.1", "db", [⟨"5432", "pg"⟩]⟩], "info", "9100"⟩
    [SchedEvent.cycle, SchedEvent.complete 0 (.connected 0)]
    ("10.0.0.1", "5432", "pg", "db") (by decide)⟩

/-- C8: the probes dispatched in one scheduler cycle are, in configuration
order, every host paired with every one of its port specs, each spawned once
as `go checkPort(host, port)` with that pair's own values; their number is the
sum of the lengths of the hosts' `Ports` lists; and this holds from every
state, so every cycle dispatches the same list whatever earlier probes did. -/
theorem C8_cycle_dispatches_all_targets (config : Config) (s : SchedState) :
    dispatched config s =
      config.Hosts.flatMap (fun host => host.Ports.map (fun port => (host, port))) ∧
    (dispatched config s).length = (config.Hosts.map (fun host => host.Ports.length)).sum ∧
    (schedCycle config s).inflight = s.inflight ++ dispatched config s ∧
    (schedCycle config s).world.trace =
      s.world.trace ++ (dispatched config s).map (fun hp => Effect.goCheckPort hp.1 hp.2) ++
        [Effect.sleep 10000000000] ∧
    (schedCycle config s).world.portStatus = s.world.portStatus ∧
    dispatched config s = dispatched config SchedState.init := by
  have hd : ∀ t : SchedState, dispatched config t = targetsOf config.Hosts := by
    intro t
    simp [dispatched, schedCycle_eq]
  refine ⟨?_, ?_, ?_, ?_, ?_, ?_⟩
  · rw [hd]; rfl
  · rw [hd, targetsOf, List.length_flatMap]
    simp [Function.comp_def]
  · rw [hd, schedCycle_eq]
  · rw [hd, schedCycle_eq]
  · rw [schedCycle_eq]
  · rw [hd, hd]

/-! ## Theorems: configuration loading -/

theorem importFiles_spec (env : Env) (config : Config) (files : List GoString) :
    if files.all (fileOk env) then
      importFiles env config files =
        ({ config with Hosts := config.Hosts ++ files.flatMap (fileHosts env) }, none)
    else (importFiles env config files).2.isSome := by
  induction files generalizing config with
  | nil => simp [importFiles]
  | cons file rest ih =>
    cases hr : env.readFile file with
    | error err => simp [importFiles, fileOk, decodeFile, hr]
    | ok data =>
      cases hu : env.unmarshal data with
      | error err => simp [importFiles, fileOk, decodeFile, hr, hu]
      | ok imported =>
        have hok : fileOk env file = true := by simp [fileOk, decodeFile, hr, hu]
        have hh : fileHosts env file = imported.Hosts := by simp [fileHosts, decodeFile, hr, hu]
        have := ih { config with Hosts := config.Hosts ++ imported.Hosts }
        simp only [importFiles, hr, hu, List.all_cons, hok, Bool.true_and, List.flatMap_cons, hh]
        split
        · next hall => simpa [hall, List.append_assoc] using this
        · next hall => simpa [hall] using this

theorem importConfigs_spec (env : Env) (config : Config) (pattern : GoString) :
    if importOk env pattern then
      importConfigs env config pattern =
        ({ config with Hosts := config.Hosts ++ (matched env pattern).flatMap (fileHosts env) },
          none)
    else (importConfigs env config pattern).2.isSome := by
  cases hg : env.glob pattern with
  | error err => simp [importConfigs, importOk, patternOk, hg]
  | ok files =>
    have := importFiles_spec env config files
    simpa [importConfigs, importOk, patternOk, matched, hg] using this

theorem importAll_spec (env : Env) (config : Config) (patterns : List GoString) :
    if patterns.all (importOk env) then
      importAll env config patterns =
        (some { config with
            Hosts := config.Hosts ++
              patterns.flatMap (fun p => (matched env p).flatMap (fileHosts env)) },
          none)
    else (importAll env config patterns).1 = none ∧ (importAll env config patterns).2.isSome := by
  induction patterns generalizing config with
  | nil => simp [importAll]
  | cons p rest ih =>
    have hp := importConfigs_spec env config p
    by_cases hok : importOk env p = true
    · rw [if_pos hok] at hp
      have := ih { config with Hosts := config.Hosts ++ (matched env p).flatMap (fileHosts env) }
      simp only [importAll, hp, List.all_cons, hok, Bool.true_and, List.flatMap_cons]
      split
      · next hall => simpa [hall, List.append_assoc] using this
      · next hall => simpa [hall] using this
    · rw [if_neg hok] at hp
      have hfalse : importOk env p = false := by simpa using hok
      simp only [List.all_cons, hfalse, Bool.false_and, Bool.false_eq_true, if_false]
      cases hres : importConfigs env config p with
      | mk c e =>
        rw [hres] at hp
        cases e with
        | none => simp at hp
        | some err => simp [importAll, hres]

theorem loadConfig_of_decode (env : Env) (filename : GoString) (main : Config)
    (h : decodeFile env filename = .ok main) :
    loadConfig env filename = importAll env main main.Import := by
  unfold decodeFile at h
  unfold loadConfig
  cases hr : env.readFile filename with
  | error err => simp [hr] at h
  | ok data =>
    simp only [hr] at h
    simp [h]

theorem loadConfig_of_not_decode (env : Env) (filename : GoString)
    (h : fileOk env filename = false) :
    (loadConfig env filename).1 = none ∧ (loadConfig env filename).2.isSome := by
  unfold fileOk decodeFile at h
  unfold loadConfig
  cases hr : env.readFile filename with
  | error err => simp
  | ok data =>
    cases hu : env.unmarshal data with
    | error err => simp [hu]
    | ok c => simp [hr, hu] at h

theorem importOk_eq_false_iff (env : Env) (p : GoString) :
    importOk env p = false ↔
      patternOk env p = false ∨ ∃ file ∈ matched env p, fileOk env file = false := by
  unfold importOk
  cases hp : patternOk env p <;> simp

/-- C3: when the main document and every file matched by its import patterns
are readable and well-formed, the `Hosts` of the configuration `loadConfig`
returns are the main document's hosts followed by, for each import pattern in
list order and each file it matches in glob order, that file's hosts in
order; nothing is dropped or deduplicated, so the length is the sum of the
lengths of the contributions, and imports inside imported files are not
followed.  A configuration is returned whenever the patterns are valid. -/
theorem C3_hosts_are_concatenated (env : Env) (filename : GoString) (main : Config)
    (hmain : decodeFile env filename = .ok main)
    (hfiles : ∀ p ∈ main.Import, ∀ file ∈ matched env p, fileOk env file = true) :
    (∀ config, (loadConfig env filename).1 = some config →
      config.Hosts =
        main.Hosts ++ main.Import.flatMap (fun p => (matched env p).flatMap (fileHosts env)) ∧
      config.Hosts.length =
        main.Hosts.length +
          (main.Import.map (fun p =>
            ((matched env p).map (fun file => (fileHosts env file).length)).sum)).sum) ∧
    ((∀ p ∈ main.Import, patternOk env p = true) →
      ∃ config, loadConfig env filename = (some config, none)) := by
  have hspec := importAll_spec env main main.Import
  rw [loadConfig_of_decode env filename main hmain]
  by_cases hall : main.Import.all (importOk env) = true
  · rw [if_pos hall] at hspec
    rw [hspec]
    refine ⟨?_, fun _ => ⟨_, rfl⟩⟩
    intro config hc
    simp only [Option.some.injEq] at hc
    subst hc
    refine ⟨rfl, ?_⟩
    simp [List.length_flatMap, Function.comp_def]
  · rw [if_neg hall] at hspec
    refine ⟨?_, ?_⟩
    · intro config hc
      rw [hspec.1] at hc
      simp at hc
    · intro hpat
      exfalso
      apply hall
      rw [List.all_eq_true]
      intro p hp
      simp only [importOk, hpat p hp, Bool.true_and, List.all_eq_true]
      exact hfiles p hp

theorem C3_witness :
    loadConfig exampleEnv "config.yaml" =
      (some ⟨["conf.d/*.yaml"],
          [⟨"10.0.0.9", "web", [⟨"80", "http"⟩]⟩, exampleHost, exampleHost], "info", "9100"⟩,
        none) ∧
    (∀ config, (loadConfig exampleEnv "config.yaml").1 = some config →
      config.Hosts =
        [⟨"10.0.0.9", "web", [⟨"80", "http"⟩]⟩] ++
          ["conf.d/*.yaml"].flatMap
            (fun p => (matched exampleEnv p).flatMap (fileHosts exampleEnv)) ∧
      config.Hosts.length =
        [(⟨"10.0.0.9", "web", [⟨"80", "http"⟩]⟩ : Host)].length +
          (["conf.d/*.yaml"].map (fun p =>
            ((matched exampleEnv p).map
              (fun file => (fileHosts exampleEnv file).length)).sum)).sum) :=
  ⟨by decide, (C3_hosts_are_concatenated exampleEnv "config.yaml"
    ⟨["conf.d/*.yaml"], [⟨"10.0.0.9", "web", [⟨"80", "http"⟩]⟩], "info", "9100"⟩
    (by rfl) (by decide)).1⟩

/-- C4: `loadConfig` returns an error and no configuration exactly when the
main file is unreadable or malformed, or some import pattern is an invalid
glob pattern, or some file matched by an import pattern is unreadable or
malformed; in every other case it returns a configuration and no error. -/
theorem C4_load_fails_iff (env : Env) (filename : GoString) :
    (((loadConfig env filename).1 = none ∧ (loadConfig env filename).2.isSome) ↔
      (fileOk env filename = false ∨
        ∃ main, decodeFile env filename = .ok main ∧
          ((∃ p ∈ main.Import, patternOk env p = false) ∨
            ∃ p ∈ main.Import, ∃ file ∈ matched env p, fileOk env file = false))) ∧
    (((loadConfig env filename).1 = none ∧ (loadConfig env filename).2.isSome) ∨
      ((loadConfig env filename).1.isSome ∧ (loadConfig env filename).2 = none)) := by
  cases hd : decodeFile env filename with
  | error err =>
    have hbad : fileOk env filename = false := by simp [fileOk, hd]
    have := loadConfig_of_not_decode env filename hbad
    exact ⟨⟨fun _ => Or.inl hbad, fun _ => this⟩, Or.inl this⟩
  | ok main =>
    have hgood : fileOk env filename = true := by simp [fileOk, hd]
    have hspec := importAll_spec env main main.Import
    rw [loadConfig_of_decode env filename main hd]
    by_cases hall : main.Import.all (importOk env) = true
    · rw [if_pos hall] at hspec
      rw [hspec]
      refine ⟨⟨fun h => by simp at h, ?_⟩, Or.inr (by simp)⟩
      rintro (h | ⟨m, hm, h⟩)
      · simp [hgood] at h
      · exfalso
        have hmm : main = m := by simpa using hm
        subst hmm
        rw [List.all_eq_true] at hall
        rcases h with ⟨p, hp, hbad⟩ | ⟨p, hp, file, hfile, hbad⟩
        · have := (importOk_eq_false_iff env p).mpr (Or.inl hbad)
          simp [hall p hp] at this
        · have := (importOk_eq_false_iff env p).mpr (Or.inr ⟨file, hfile, hbad⟩)
          simp [hall p hp] at this
    · rw [if_neg hall] at hspec
      refine ⟨⟨fun _ => Or.inr ⟨main, rfl, ?_⟩, fun _ => hspec⟩, Or.inl hspec⟩
      have : ∃ p ∈ main.Import, importOk env p = false := by
        simpa [List.all_eq_true] using hall
      obtain ⟨p, hp, hbad⟩ := this
      rcases (importOk_eq_false_iff env p).mp hbad with h | h
      · exact Or.inl ⟨p, hp, h⟩
      · exact Or.inr ⟨p, hp, h⟩

theorem C4_witness :
    (loadConfig exampleEnv "broken.yaml").1 = none ∧
      (loadConfig exampleEnv "broken.yaml").2.isSome :=
  (C4_load_fails_iff exampleEnv "broken.yaml").1.mpr
    (Or.inr ⟨⟨["conf.d/*.yaml", "bad.d/*.yaml"], [], "info", "9100"⟩, by rfl,
      Or.inr ⟨"bad.d/*.yaml", by decide, "bad.d/x.yaml", by decide, by decide⟩⟩)

/-- C10: for a valid import pattern that matches no file, `importConfigs`
returns no error and leaves the configuration unchanged; and a main document
all of whose import patterns match nothing loads with exactly its own hosts. -/
theorem C10_empty_glob_is_noop (env : Env) :
    (∀ (config : Config) (p : GoString), patternOk env p = true → matched env p = [] →
      importConfigs env config p = (config, none)) ∧
    (∀ (filename : GoString) (main : Config), decodeFile env filename = .ok main →
      (∀ p ∈ main.Import, patternOk env p = true ∧ matched env p = []) →
      loadConfig env filename = (some main, none)) := by
  constructor
  · intro config p hp hm
    have hspec := importConfigs_spec env config p
    have hok : importOk env p = true := by simp [importOk, hp, hm]
    rw [if_pos hok, hm] at hspec
    simpa using hspec
  · intro filename main hd himp
    have hall : main.Import.all (importOk env) = true := by
      rw [List.all_eq_true]
      intro p hp
      simp [importOk, (himp p hp).1, (himp p hp).2]
    have hspec := importAll_spec env main main.Import
    rw [if_pos hall] at hspec
    have hnil : main.Import.flatMap (fun p => (matched env p).flatMap (fileHosts env)) = [] := by
      rw [List.flatMap_eq_nil_iff]
      intro p hp
      simp [(himp p hp).2]
    rw [loadConfig_of_decode env filename main hd, hspec, hnil]
    simp

theorem C10_witness :
    importConfigs exampleEnv ⟨[], [exampleHost], "info", "9100"⟩ "none.d/*.yaml" =
      (⟨[], [exampleHost], "info", "9100"⟩, none) ∧
    loadConfig exampleEnv "lonely.yaml" =
      (some ⟨["none.d/*.yaml"], [exampleHost], "debug", "9100"⟩, none) :=
  ⟨(C10_empty_glob_is_noop exampleEnv).1 ⟨[], [exampleHost], "info", "9100"⟩ "none.d/*.yaml"
      (by decide) (by decide),
   (C10_empty_glob_is_noop exampleEnv).2 "lonely.yaml"
      ⟨["none.d/*.yaml"], [exampleHost], "debug", "9100"⟩ (by rfl) (by decide)⟩

/-! ## Theorems: `main` -/

/-- C9: when `loadConfig` returns an error, the run prints the error and exits
with status 1, and no effect before the exit starts the scheduler, spawns or
performs a probe, or calls `ListenAndServe`. -/
theorem C9_load_error_exits_first (env : Env) (configFile : GoString)
    (buildErr listenErr : Option Err) (err : Err)
    (h : (loadConfig env configFile).2 = some err) :
    Run env configFile buildErr listenErr =
      [Effect.printf ("Error loading config file: " ++ err ++ "\n"), Effect.exit 1] ∧
    ∃ before, Run env configFile buildErr listenErr = before ++ [Effect.exit 1] ∧
      ∀ e ∈ before, e.probesOrServes = false := by
  have hrun : Run env configFile buildErr listenErr =
      [Effect.printf ("Error loading config file: " ++ err ++ "\n"), Effect.exit 1] := by
    unfold Run
    cases hl : loadConfig env configFile with
    | mk c e =>
      rw [hl] at h
      simp only at h
      subst h
      cases c <;> rfl
  refine ⟨hrun, [Effect.printf ("Error loading config file: " ++ err ++ "\n")], ?_, ?_⟩
  · rw [hrun]; rfl
  · intro e he
    simp only [List.mem_singleton] at he
    subst he
    rfl

theorem C9_witness :
    (loadConfig exampleEnv "missing.yaml").2 = some "open: no such file or directory" ∧
    Run exampleEnv "missing.yaml" none none =
      [Effect.printf "Error loading config file: open: no such file or directory\n",
       Effect.exit 1] :=
  ⟨by decide, (C9_load_error_exits_first exampleEnv "missing.yaml" none none
    "open: no such file or directory" (by decide)).1⟩

end PortExporter
